import Mathlib

/-!
# Orthogonal triple-view mode of the MRtrix viewer

A shallow embedding of `src/gui/mrview/mode/ortho.cpp` (class `Ortho`, a rendering mode
derived from `Mode::Base`) and theorems about it.

Conventions of the embedding.

* `float`/`double` values are exact rationals (`ℚ`); a division by zero, which the source
  does not guard, is the `0` of `ℚ`.
* `GLint`/`int` values are `Int`. Signed 32-bit overflow (undefined behaviour in C++) is not
  modelled; for a viewport with origin `(0, 0)`, as the theorems on the viewports fix it,
  every intermediate value of `Ortho::paint` lies between 0 and the viewport size.
* OpenGL and widget calls are recorded, in order, in the `calls` field of the mode state.
* Members and helpers of `Mode::Base`, `Point<>`, `Math` and the image classes are declared
  outside `ortho.cpp`. Plain accessors are fields of the state; the others are fields of
  the structure `Base`, over which every theorem is universally quantified.
* Dereferencing the null image pointer, indexing a `Point<>` outside `0..2` and reaching
  `assert (0)` have no normal continuation: the first two are undefined behaviour in C++.
  A run that reaches one of them ends there with a `Status` other than `ok` that names the
  point reached; the calls issued before that point stay recorded.
-/

namespace Ortho

/-! ## Data model -/

/-- Values of `Point<>`: three real coordinates. -/
structure Point3 where
  x : ℚ
  y : ℚ
  z : ℚ
deriving DecidableEq

/-- Reading `p[i]` of a `Point<>`. The class stores three coordinates and does not check the
index; a read at an index outside `0..2` is out of range and has no value (`none`). -/
def Point3.get (p : Point3) (i : Int) : Option ℚ :=
  if i = 0 then some p.x else if i = 1 then some p.y else if i = 2 then some p.z else none

/-- Assignment `p[i] = v` of a `Point<>`. A write at an index outside `0..2` is out of range
and has no result (`none`). -/
def Point3.set (p : Point3) (i : Int) (v : ℚ) : Option Point3 :=
  if i = 0 then some { p with x := v }
  else if i = 1 then some { p with y := v }
  else if i = 2 then some { p with z := v }
  else none

/-- A viewport rectangle `(x, y, width, height)` in window coordinates; OpenGL places the
origin at the lower-left corner, so larger `y` is higher on the screen. -/
structure Rect where
  x : Int
  y : Int
  w : Int
  h : Int
deriving DecidableEq

/-- The entry `viewport_matrix[i]` of the four integers `(x, y, width, height)`. -/
def Rect.elem (r : Rect) (i : Nat) : Int :=
  match i with
  | 0 => r.x
  | 1 => r.y
  | 2 => r.w
  | _ => r.h

/-- The pixel `(px, py)` lies inside the rectangle. -/
def Rect.contains (r : Rect) (px py : Int) : Prop :=
  r.x ≤ px ∧ px < r.x + r.w ∧ r.y ≤ py ∧ py < r.y + r.h

instance (r : Rect) (px py : Int) : Decidable (r.contains px py) := by
  unfold Rect.contains
  infer_instance

/-- Number of pixels of a rectangle of non-negative size. -/
def Rect.area (r : Rect) : Int := r.w * r.h

/-- Two rectangles share a pixel. -/
def Rect.overlaps (r₁ r₂ : Rect) : Prop :=
  ∃ px py : Int, r₁.contains px py ∧ r₂.contains px py

/-- The active image as `ortho.cpp` uses it: `header().dim/vox`, `interp.dim/vox`,
`interp.image2scanner_matrix()`, `interp.scanner2voxel` and `interp.voxel2scanner`. -/
structure Image where
  header_dim : Int → Int
  header_vox : Int → ℚ
  interp_dim : Int → Int
  interp_vox : Int → ℚ
  image2scanner_matrix : List ℚ
  scanner2voxel : Point3 → Point3
  voxel2scanner : Point3 → Point3

/-- The cursor shapes named in `ortho.cpp`. -/
inductive CursorShape where
  | window
  | zoom
  | crosshair
  | pan_crosshair
deriving DecidableEq

/-- The two values of `glMatrixMode` used. -/
inductive MatrixMode where
  | GL_PROJECTION
  | GL_MODELVIEW
deriving DecidableEq

/-- The capabilities switched by `glEnable`/`glDisable`. -/
inductive Capability where
  | GL_BLEND
  | GL_TEXTURE_2D
  | GL_DEPTH_TEST
deriving DecidableEq

/-- The drawing calls issued by `Ortho::paint` and `Ortho::draw_projection`. -/
inductive GLCall where
  | glPushAttrib_VIEWPORT_BIT
  | glPopAttrib
  | glViewport (r : Rect)
  | glMatrixMode (m : MatrixMode)
  | glLoadIdentity
  | glOrtho (left right bottom top near far : ℚ)
  | glMultMatrixf (M : List ℚ)
  | glTranslatef (x y z : ℚ)
  | glDisable (c : Capability)
  | glEnable (c : Capability)
  | glShadeModel_FLAT
  | glTexEnvf_REPLACE
  | glDepthMask_FALSE
  | glColorMask_TRUE
  | glColor4f (r g b a : ℚ)
  | render2D (proj : Int) (slice : Int)
  | draw_focus
  | renderText (text : String) (edge : Nat)
deriving DecidableEq

/-- The state read and written by the mode: the window's camera (`focus()`, `target()`,
`FOV()`), the active image, the orientation toggle, the GL widget size, the current GL
viewport with its attribute stack, the member `viewport_matrix`, the mouse state, the
widget cursor, the drawing calls issued so far and the number of `updateGL()` requests. -/
structure Mode where
  image : Option Image
  focus : Point3
  target : Point3
  FOV : ℚ
  show_orientation : Bool
  glarea_width : Int
  glarea_height : Int
  gl_viewport : Rect
  gl_attrib_stack : List Rect
  viewport_matrix : Rect
  mouse_edge : Nat
  mouse_modifiers : Nat
  cursor : CursorShape
  calls : List GLCall
  redraws : Nat

/-- What `ortho.cpp` takes from declarations outside the file, left arbitrary:
`Point<>::operator!` and the default `Point<>()`, `Math::round`,
`Base::adjust_projection_matrix`, `Base::change_FOV_scroll`, and the four edge flags. -/
structure Base where
  point_invalid : Point3 → Bool
  point_default : Point3
  round : ℚ → Int
  adjust_projection_matrix : List ℚ → List ℚ
  change_FOV_scroll : ℚ → Mode → Mode
  LeftEdge : Nat
  RightEdge : Nat
  TopEdge : Nat
  BottomEdge : Nat

/-- How a run ended: normally (`ok`), at a dereference of the null image pointer, at an
access of a `Point<>` outside `0..2`, or at `assert (0)`. -/
inductive Status where
  | ok
  | null_image
  | out_of_range
  | assert_failed
deriving DecidableEq

/-- Result of a run that may stop early: the status and the state reached. -/
structure Run where
  status : Status
  state : Mode

/-- Sequencing: continue with `f` only after a normal completion. -/
def Run.andThen (r : Run) (f : Mode → Run) : Run :=
  match r.status with
  | .ok => f r.state
  | _ => r

/-- Values of `Qt::Orientation`. -/
inductive Orientation where
  | Horizontal
  | Vertical
deriving DecidableEq

/-- The constant `Qt::ShiftModifier`. -/
def Qt_ShiftModifier : Nat := 0x02000000

/-- The constant `Qt::ControlModifier`. -/
def Qt_ControlModifier : Nat := 0x04000000

/-! ## Primitive operations -/

/-- Conversion of a `double` to `GLint`: truncation toward zero. -/
def toGLint (q : ℚ) : Int := Int.tdiv q.num q.den

/-- Record one drawing call. -/
def emit (c : GLCall) (s : Mode) : Mode := { s with calls := s.calls ++ [c] }

/-- Record a sequence of drawing calls. -/
def emitAll (cs : List GLCall) (s : Mode) : Mode := { s with calls := s.calls ++ cs }

/-- The call `glViewport (x, y, w, h)`. -/
def glViewport (x y w h : Int) (s : Mode) : Mode :=
  emit (.glViewport ⟨x, y, w, h⟩) { s with gl_viewport := ⟨x, y, w, h⟩ }

/-- The call `glPushAttrib (GL_VIEWPORT_BIT)`. -/
def glPushAttrib (s : Mode) : Mode :=
  emit .glPushAttrib_VIEWPORT_BIT { s with gl_attrib_stack := s.gl_viewport :: s.gl_attrib_stack }

/-- The call `glPopAttrib ()`. -/
def glPopAttrib (s : Mode) : Mode :=
  match s.gl_attrib_stack with
  | [] => emit .glPopAttrib s
  | r :: rest => emit .glPopAttrib { s with gl_viewport := r, gl_attrib_stack := rest }

/-- Modelled from the spec: `Base::get_modelview_projection_viewport`, declared outside
`ortho.cpp`; the viewport rectangles are "recomputed every frame from current surface
size", so it stores the current GL viewport in `viewport_matrix`. -/
def get_modelview_projection_viewport (s : Mode) : Mode :=
  { s with viewport_matrix := s.gl_viewport }

/-- Modelled from the spec: the setter `Base::set_focus` of the camera state. -/
def set_focus (p : Point3) (s : Mode) : Mode := { s with focus := p }

/-- Modelled from the spec: the setter `Base::set_target` of the camera state. -/
def set_target (p : Point3) (s : Mode) : Mode := { s with target := p }

/-- Modelled from the spec: the setter `Base::set_FOV` of the camera state. -/
def set_FOV (v : ℚ) (s : Mode) : Mode := { s with FOV := v }

/-- The redraw request `updateGL ()`. -/
def updateGL (s : Mode) : Mode := { s with redraws := s.redraws + 1 }

/-- The call `glarea()->setCursor (c)`. -/
def setCursor (c : CursorShape) (s : Mode) : Mode := { s with cursor := c }

/-! ## The functions of `ortho.cpp` -/

/-- `Ortho::reset_view`. -/
def reset_view (B : Base) (s : Mode) : Mode :=
  match s.image with
  | none => s
  | some img =>
    let dim0 : ℚ := (img.header_dim 0 : ℚ) * img.header_vox 0
    let dim1 : ℚ := (img.header_dim 1 : ℚ) * img.header_vox 1
    let dim2 : ℚ := (img.header_dim 2 : ℚ) * img.header_vox 2
    let p : Point3 :=
      ⟨(img.header_dim 0 : ℚ) / 2, (img.header_dim 1 : ℚ) / 2, (img.header_dim 2 : ℚ) / 2⟩
    let s := set_focus (img.voxel2scanner p) s
    let s := set_FOV (max dim0 (max dim1 dim2)) s
    set_target B.point_default s

/-- The lines under `// image slice:` of `Ortho::draw_projection`; `none` when `voxel[proj]`
is out of range. -/
def image_slice (B : Base) (img : Image) (proj : Int) (focus : Point3) : Option Int :=
  let voxel := img.scanner2voxel focus
  (voxel.get proj).map B.round

/-- The lines under `// camera target:` of `Ortho::draw_projection`, for the slice index
computed before; `none` when `F[proj]` is out of range. -/
def camera_target (img : Image) (proj : Int) (slice : Int) (target : Point3) : Option Point3 :=
  let F := img.scanner2voxel target
  (F.set proj (slice : ℚ)).map img.voxel2scanner

/-- The four `renderText` calls of one `case` of the orientation switch. -/
def edge_labels (B : Base) (l t r b : String) : List GLCall :=
  [.renderText l B.LeftEdge, .renderText t B.TopEdge,
   .renderText r B.RightEdge, .renderText b B.BottomEdge]

/-- `Ortho::draw_projection`. The reads `F[0]`, `F[1]`, `F[2]` have constant indices in
range and are the three coordinates of `F`. -/
def draw_projection (B : Base) (proj : Int) (s : Mode) : Run :=
  match s.image with
  | none => ⟨.null_image, s⟩
  | some img =>
    let Q := img.image2scanner_matrix
    let M := B.adjust_projection_matrix Q
    match image_slice B img proj s.focus with
    | none => ⟨.out_of_range, s⟩
    | some slice =>
    match camera_target img proj slice s.target with
    | none => ⟨.out_of_range, s⟩
    | some F =>
    let w := s.glarea_width
    let h := s.glarea_height
    let fov : ℚ := s.FOV / ((w + h : Int) : ℚ)
    let depth : ℚ := (img.interp_dim proj : ℚ) * img.interp_vox proj
    let s := emitAll
      [.glMatrixMode .GL_PROJECTION,
       .glLoadIdentity,
       .glOrtho (-(w : ℚ) * fov) ((w : ℚ) * fov) (-(h : ℚ) * fov) ((h : ℚ) * fov) (-depth) depth,
       .glMatrixMode .GL_MODELVIEW,
       .glLoadIdentity,
       .glMultMatrixf M,
       .glTranslatef (-F.x) (-F.y) (-F.z),
       .glDisable .GL_BLEND,
       .glEnable .GL_TEXTURE_2D,
       .glShadeModel_FLAT,
       .glDisable .GL_DEPTH_TEST,
       .glTexEnvf_REPLACE,
       .glDepthMask_FALSE,
       .glColorMask_TRUE,
       .render2D proj slice,
       .glDisable .GL_TEXTURE_2D,
       .draw_focus] s
    if s.show_orientation then
      let s := emit (.glColor4f 1 0 0 1) s
      if proj = 0 then ⟨.ok, emitAll (edge_labels B "A" "S" "P" "I") s⟩
      else if proj = 1 then ⟨.ok, emitAll (edge_labels B "R" "S" "L" "I") s⟩
      else if proj = 2 then ⟨.ok, emitAll (edge_labels B "R" "A" "L" "P") s⟩
      else ⟨.assert_failed, s⟩
    else ⟨.ok, s⟩

/-- `Ortho::paint`. -/
def paint (B : Base) (s : Mode) : Run :=
  let s := if B.point_invalid s.focus then reset_view B s else s
  let s := if B.point_invalid s.target then set_target s.focus s else s
  let s := get_modelview_projection_viewport s
  let s := glPushAttrib s
  let vm := s.viewport_matrix
  let midx : Int := toGLint ((vm.elem 0 : ℚ) + (1 / 2) * ((vm.elem 2 - vm.elem 0 : Int) : ℚ))
  let midy : Int := toGLint ((vm.elem 1 : ℚ) + (1 / 2) * ((vm.elem 3 - vm.elem 1 : Int) : ℚ))
  (draw_projection B 0 (glViewport midx midy midx midy s)).andThen fun s =>
  (draw_projection B 1 (glViewport (vm.elem 0) midy midx midy s)).andThen fun s =>
  (draw_projection B 2 (glViewport (vm.elem 0) (vm.elem 1) midx midy s)).andThen fun s =>
  ⟨.ok, glPopAttrib s⟩

/-- `Ortho::set_cursor`. -/
def set_cursor (B : Base) (s : Mode) : Mode :=
  if s.mouse_edge = (B.RightEdge ||| B.BottomEdge) then setCursor .window s
  else if s.mouse_edge &&& B.LeftEdge ≠ 0 then setCursor .zoom s
  else setCursor .crosshair s

/-- `Ortho::mouse_wheel`: the returned flag and the state reached. -/
def mouse_wheel (B : Base) (delta : ℚ) (orientation : Orientation) (s : Mode) : Bool × Mode :=
  if orientation = .Vertical then
    if s.mouse_modifiers = Qt_ControlModifier then
      (true, updateGL (B.change_FOV_scroll (-delta) s))
    else (false, s)
  else (false, s)

/-! ## Observations on the recorded calls -/

/-- The calls issued between two states of the same run. -/
def issued (before after : Mode) : List GLCall := after.calls.drop before.calls.length

/-- The arguments last given to `glViewport`, `glOrtho` (left, right, bottom, top, near,
far) and `glTranslatef` while a list of calls is replayed; `none` before the first such
call. -/
structure Tracked where
  viewport : Option Rect
  ortho : Option (ℚ × ℚ × ℚ × ℚ × ℚ × ℚ)
  translate : Option Point3
deriving DecidableEq

/-- Nothing set yet. -/
def Tracked.init : Tracked := ⟨none, none, none⟩

/-- One rendered slice: the arguments of `render2D` together with the viewport, the
orthographic bounds and the translation in force when it was issued. -/
structure Frame where
  proj : Int
  slice : Int
  setup : Tracked
deriving DecidableEq

/-- Effect of one call on the tracked arguments. -/
def Tracked.exec (g : Tracked) : GLCall → Tracked
  | .glViewport r => { g with viewport := some r }
  | .glOrtho l r b t n f => { g with ortho := some (l, r, b, t, n, f) }
  | .glTranslatef x y z => { g with translate := some ⟨x, y, z⟩ }
  | _ => g

/-- Replay a list of calls and collect one `Frame` per `render2D` call. -/
def frames : Tracked → List GLCall → List Frame
  | _, [] => []
  | g, .render2D p sl :: cs => ⟨p, sl, g⟩ :: frames g cs
  | g, c :: cs => frames (g.exec c) cs

/-- The `(text, edge)` arguments of the `renderText` calls of a list of calls, in order. -/
def labels : List GLCall → List (String × Nat)
  | [] => []
  | .renderText t e :: cs => (t, e) :: labels cs
  | _ :: cs => labels cs

/-- The rectangles given to `glViewport` in a list of calls, in order. -/
def viewport_calls : List GLCall → List Rect
  | [] => []
  | .glViewport r :: cs => r :: viewport_calls cs
  | _ :: cs => viewport_calls cs

/-- A set of screen edges, the meaning of an edge mask. -/
structure EdgeSet where
  left : Bool
  right : Bool
  top : Bool
  bottom : Bool
deriving DecidableEq

/-- The integer mask of a set of edges: the bitwise or of the flags of its members. -/
def edge_mask (B : Base) (S : EdgeSet) : Nat :=
  (if S.left then B.LeftEdge else 0) ||| (if S.right then B.RightEdge else 0) |||
  (if S.top then B.TopEdge else 0) ||| (if S.bottom then B.BottomEdge else 0)

/-- The four edge flags are single bits at pairwise different positions. -/
def edge_bits (B : Base) (l r t b : Nat) : Prop :=
  B.LeftEdge = 2 ^ l ∧ B.RightEdge = 2 ^ r ∧ B.TopEdge = 2 ^ t ∧ B.BottomEdge = 2 ^ b ∧
  l ≠ r ∧ l ≠ t ∧ l ≠ b ∧ r ≠ t ∧ r ≠ b ∧ t ≠ b

/-- Two states agree on everything `Ortho::draw_projection` reads: image, camera,
orientation toggle and widget size. -/
def Mode.sameSetting (t s : Mode) : Prop :=
  t.image = s.image ∧ t.focus = s.focus ∧ t.target = s.target ∧ t.FOV = s.FOV ∧
  t.show_orientation = s.show_orientation ∧ t.glarea_width = s.glarea_width ∧
  t.glarea_height = s.glarea_height

/-- The left, right, bottom, top, near and far bounds that `Ortho::draw_projection (proj)`
gives to `glOrtho` in the state `s` with image `img`. -/
def ortho_bounds (img : Image) (proj : Int) (s : Mode) : ℚ × ℚ × ℚ × ℚ × ℚ × ℚ :=
  let w := s.glarea_width
  let h := s.glarea_height
  let fov : ℚ := s.FOV / ((w + h : Int) : ℚ)
  let depth : ℚ := (img.interp_dim proj : ℚ) * img.interp_vox proj
  (-(w : ℚ) * fov, (w : ℚ) * fov, -(h : ℚ) * fov, (h : ℚ) * fov, -depth, depth)

/-- The frame that `Ortho::draw_projection (proj)` renders in state `s` with image `img`
into the viewport `r`, for the slice index `slice` and the look-at point `F`. -/
def projection_frame (img : Image) (s : Mode) (proj : Int) (slice : Int) (F : Point3)
    (r : Rect) : Frame :=
  ⟨proj, slice, ⟨some r, some (ortho_bounds img proj s), some ⟨-F.x, -F.y, -F.z⟩⟩⟩

/-- The viewports in force at the `render2D` calls of a list of calls, in order. -/
def viewports (cs : List GLCall) : List Rect :=
  (frames Tracked.init cs).filterMap fun f => f.setup.viewport

/-- How many of the rectangles contain the pixel `(px, py)`. -/
def coverCount (rs : List Rect) (px py : Int) : Nat :=
  rs.countP fun r => decide (r.contains px py)

/-- The half-extents as the specification words them: `fovScale = fov / (viewportWidth +
viewportHeight)`, horizontal half-extent `viewportWidth * fovScale`, vertical half-extent
`viewportHeight * fovScale`. -/
def spec_half_extents (viewportWidth viewportHeight : Int) (fov : ℚ) : ℚ × ℚ :=
  let fovScale : ℚ := fov / ((viewportWidth : ℚ) + (viewportHeight : ℚ))
  ((viewportWidth : ℚ) * fovScale, (viewportHeight : ℚ) * fovScale)

/-- The left, right, bottom and top bounds given to `glOrtho` for a frame, when set. -/
def Frame.bounds (f : Frame) : Option (ℚ × ℚ × ℚ × ℚ) :=
  f.setup.ortho.map fun o => (o.1, o.2.1, o.2.2.1, o.2.2.2.1)

/-! ## Concrete data for evaluating the definitions -/

/-- An image of 64 x 64 x 32 voxels of size 1 x 1 x 2 whose voxel and scanner frames
coincide. -/
def sampleImage : Image where
  header_dim := fun i => if i = 2 then 32 else 64
  header_vox := fun i => if i = 2 then 2 else 1
  interp_dim := fun i => if i = 2 then 32 else 64
  interp_vox := fun i => if i = 2 then 2 else 1
  image2scanner_matrix := [1, 0, 0, 0, 0, 1, 0, 0, 0, 0, 1, 0, 0, 0, 0, 1]
  scanner2voxel := fun p => p
  voxel2scanner := fun p => p

/-- One choice of the externally declared helpers: every point is valid, rounding is to the
nearest integer, the projection matrix is passed through, scrolling adds to the field of
view, and the edge flags are the bits 1, 2, 4 and 8. -/
def sampleBase : Base where
  point_invalid := fun _ => false
  point_default := ⟨0, 0, 0⟩
  round := fun q => ⌊q + 1 / 2⌋
  adjust_projection_matrix := fun Q => Q
  change_FOV_scroll := fun factor s => set_FOV (s.FOV + factor) s
  LeftEdge := 4
  RightEdge := 8
  TopEdge := 1
  BottomEdge := 2

/-- A state with the given image, orientation toggle, surface size `W x H` (both as widget
size and as current GL viewport) and mouse state, a field of view of 1, and nothing issued
yet. -/
def sampleMode (image : Option Image) (checked : Bool) (W H : Int) (edge mods : Nat) : Mode where
  image := image
  focus := ⟨1, 2, 3⟩
  target := ⟨4, 5, 6⟩
  FOV := 1
  show_orientation := checked
  glarea_width := W
  glarea_height := H
  gl_viewport := ⟨0, 0, W, H⟩
  gl_attrib_stack := []
  viewport_matrix := ⟨0, 0, 0, 0⟩
  mouse_edge := edge
  mouse_modifiers := mods
  cursor := .pan_crosshair
  calls := []
  redraws := 0

/-! ## Auxiliary lemmas -/

theorem toGLint_of_nonneg (q : ℚ) (hq : 0 ≤ q) : toGLint q = ⌊q⌋ := by
  unfold toGLint
  rw [Rat.floor_def, Int.tdiv_eq_ediv (Rat.num_nonneg.mpr hq) (Int.natCast_nonneg _)]

theorem toGLint_mid (W : Int) (hW : 0 ≤ W) :
    toGLint (((0 : Int) : ℚ) + (1 / 2) * ((W - 0 : Int) : ℚ)) = W / 2 := by
  have h : (((0 : Int) : ℚ) + (1 / 2) * ((W - 0 : Int) : ℚ)) = (W : ℚ) / ((2 : ℕ) : ℚ) := by
    push_cast
    ring
  rw [h, toGLint_of_nonneg _ (by positivity), Rat.floor_intCast_div_natCast]
  rfl

theorem frames_append (g : Tracked) (cs ds : List GLCall) :
    frames g (cs ++ ds) = frames g cs ++ frames (cs.foldl Tracked.exec g) ds := by
  induction cs generalizing g with
  | nil => simp [frames]
  | cons c cs ih =>
    cases c <;> simp [frames, Tracked.exec, ih]

theorem viewport_calls_append (cs ds : List GLCall) :
    viewport_calls (cs ++ ds) = viewport_calls cs ++ viewport_calls ds := by
  induction cs with
  | nil => simp [viewport_calls]
  | cons c cs ih => cases c <;> simp [viewport_calls, ih]

theorem issued_of_calls (s t : Mode) (cs : List GLCall) (h : t.calls = s.calls ++ cs) :
    issued s t = cs := by
  simp [issued, h]

theorem sameSetting_frame (img : Image) (t s : Mode) (h : t.sameSetting s)
    (proj slice : Int) (F : Point3) (r : Rect) :
    projection_frame img t proj slice F r = projection_frame img s proj slice F r := by
  obtain ⟨_, _, _, h4, _, h6, h7⟩ := h
  simp [projection_frame, ortho_bounds, h4, h6, h7]

theorem in_range_slice_target (B : Base) (img : Image) (proj : Int)
    (hp : proj = 0 ∨ proj = 1 ∨ proj = 2) (focus target : Point3) :
    ∃ (slice : Int) (F : Point3), image_slice B img proj focus = some slice ∧
      camera_target img proj slice target = some F := by
  rcases hp with rfl | rfl | rfl <;> simp [image_slice, camera_target, Point3.get, Point3.set]

theorem sameSetting_trans (a b c : Mode) (h₁ : a.sameSetting b) (h₂ : b.sameSetting c) :
    a.sameSetting c := by
  obtain ⟨a1, a2, a3, a4, a5, a6, a7⟩ := h₁
  obtain ⟨b1, b2, b3, b4, b5, b6, b7⟩ := h₂
  exact ⟨a1.trans b1, a2.trans b2, a3.trans b3, a4.trans b4, a5.trans b5, a6.trans b6,
    a7.trans b7⟩

theorem draw_projection_step (B : Base) (proj : Int) (s : Mode) (img : Image)
    (himg : s.image = some img) (hp : proj = 0 ∨ proj = 1 ∨ proj = 2) (x y w h : Int) :
    ∃ (slice : Int) (F : Point3) (t : Mode) (cs : List GLCall),
      draw_projection B proj (glViewport x y w h s) = ⟨.ok, t⟩ ∧ t.sameSetting s ∧
      t.gl_attrib_stack = s.gl_attrib_stack ∧
      t.calls = s.calls ++ cs ∧ viewport_calls cs = [⟨x, y, w, h⟩] ∧
      ∀ g, frames g cs = [projection_frame img s proj slice F ⟨x, y, w, h⟩] := by
  obtain ⟨slice, F, h1, h2⟩ := in_range_slice_target B img proj hp s.focus s.target
  refine ⟨slice, F, ?_⟩
  unfold draw_projection
  simp only [glViewport, emit, himg, h1, h2]
  rcases hp with rfl | rfl | rfl <;> cases hs : s.show_orientation
  all_goals simp [emitAll, emit, hs, edge_labels, frames, Tracked.exec,
    Mode.sameSetting, projection_frame, ortho_bounds, viewport_calls]
  all_goals exact himg.symm

theorem paint_run (B : Base) (s : Mode) (img : Image) (himg : s.image = some img) :
    ∃ (c : Mode) (cs : List GLCall) (midx midy : Int) (sl0 sl1 sl2 : Int) (F0 F1 F2 : Point3),
      midx = toGLint ((s.gl_viewport.elem 0 : ℚ) +
        (1 / 2) * ((s.gl_viewport.elem 2 - s.gl_viewport.elem 0 : Int) : ℚ)) ∧
      midy = toGLint ((s.gl_viewport.elem 1 : ℚ) +
        (1 / 2) * ((s.gl_viewport.elem 3 - s.gl_viewport.elem 1 : Int) : ℚ)) ∧
      paint B s = ⟨.ok, c⟩ ∧ c.calls = s.calls ++ cs ∧ c.image = some img ∧
      c.glarea_width = s.glarea_width ∧ c.glarea_height = s.glarea_height ∧
      c.gl_viewport = s.gl_viewport ∧
      (B.point_invalid s.focus = false → c.FOV = s.FOV) ∧
      (B.point_invalid s.focus = false → B.point_invalid s.target = false → c.sameSetting s) ∧
      viewport_calls cs =
        [⟨midx, midy, midx, midy⟩, ⟨s.gl_viewport.elem 0, midy, midx, midy⟩,
         ⟨s.gl_viewport.elem 0, s.gl_viewport.elem 1, midx, midy⟩] ∧
      frames Tracked.init cs =
        [projection_frame img c 0 sl0 F0 ⟨midx, midy, midx, midy⟩,
         projection_frame img c 1 sl1 F1 ⟨s.gl_viewport.elem 0, midy, midx, midy⟩,
         projection_frame img c 2 sl2 F2
          ⟨s.gl_viewport.elem 0, s.gl_viewport.elem 1, midx, midy⟩] := by
  unfold paint
  simp only []
  generalize hs2 : (if B.point_invalid (if B.point_invalid s.focus = true then reset_view B s
        else s).target = true
      then set_target (if B.point_invalid s.focus = true then reset_view B s else s).focus
        (if B.point_invalid s.focus = true then reset_view B s else s)
      else if B.point_invalid s.focus = true then reset_view B s else s) = s2
  have hpre : s2.image = some img ∧ s2.calls = s.calls ∧ s2.gl_viewport = s.gl_viewport ∧
      s2.glarea_width = s.glarea_width ∧ s2.glarea_height = s.glarea_height ∧
      (B.point_invalid s.focus = false → s2.FOV = s.FOV) ∧
      (B.point_invalid s.focus = false → B.point_invalid s.target = false → s2 = s) := by
    subst hs2
    split_ifs with k1 k2 k2 <;> simp [reset_view, himg, set_target, set_focus, set_FOV, k1, k2]
  obtain ⟨hi, hc, hv, hw, hh, hfovk, hkeep⟩ := hpre
  have hvm : (glPushAttrib (get_modelview_projection_viewport s2)).viewport_matrix
      = s.gl_viewport := by
    simp [glPushAttrib, get_modelview_projection_viewport, emit, hv]
  rw [hvm]
  generalize hmx : toGLint (↑(s.gl_viewport.elem 0) + 1 / 2 * ↑(s.gl_viewport.elem 2 - s.gl_viewport.elem 0)) = midx
  generalize hmy : toGLint (↑(s.gl_viewport.elem 1) + 1 / 2 * ↑(s.gl_viewport.elem 3 - s.gl_viewport.elem 1)) = midy
  generalize hs4 : glPushAttrib (get_modelview_projection_viewport s2) = s4
  have h4 : s4.sameSetting s2 ∧ s4.calls = s2.calls ++ [.glPushAttrib_VIEWPORT_BIT] ∧
      s4.gl_attrib_stack = s2.gl_viewport :: s2.gl_attrib_stack := by
    rw [← hs4]
    simp [glPushAttrib, get_modelview_projection_viewport, emit, Mode.sameSetting]
  clear hs4
  obtain ⟨same4, calls4, stack4⟩ := h4
  obtain ⟨sl0, F0, t0, cs0, e0, same0, stack0, calls0, v0, f0⟩ := draw_projection_step B 0 s4 img
    (same4.1.trans hi) (Or.inl rfl) midx midy midx midy
  rw [e0]
  simp only [Run.andThen]
  obtain ⟨sl1, F1, t1, cs1, e1, same1, stack1, calls1, v1, f1⟩ := draw_projection_step B 1 t0 img
    ((same0.1.trans same4.1).trans hi) (Or.inr (Or.inl rfl)) (s.gl_viewport.elem 0) midy midx midy
  rw [e1]
  simp only []
  obtain ⟨sl2, F2, t2, cs2, e2, same2, stack2, calls2, v2, f2⟩ := draw_projection_step B 2 t1 img
    (((same1.1.trans same0.1).trans same4.1).trans hi) (Or.inr (Or.inr rfl))
    (s.gl_viewport.elem 0) (s.gl_viewport.elem 1) midx midy
  rw [e2]
  simp only []
  have S0 : t0.sameSetting s2 := sameSetting_trans _ _ _ same0 same4
  have S1 : t1.sameSetting s2 := sameSetting_trans _ _ _ same1 S0
  have S2 : t2.sameSetting s2 := sameSetting_trans _ _ _ same2 S1
  have hst : t2.gl_attrib_stack = s2.gl_viewport :: s2.gl_attrib_stack := by
    rw [stack2, stack1, stack0, stack4]
  have hpop : glPopAttrib t2 = emit .glPopAttrib
      { t2 with gl_viewport := s2.gl_viewport, gl_attrib_stack := s2.gl_attrib_stack } := by
    simp [glPopAttrib, hst]
  have Sc : (glPopAttrib t2).sameSetting s2 := by
    rw [hpop]
    exact S2
  refine ⟨glPopAttrib t2, [.glPushAttrib_VIEWPORT_BIT] ++ cs0 ++ cs1 ++ cs2 ++ [.glPopAttrib],
    midx, midy, sl0, sl1, sl2, F0, F1, F2, rfl, rfl, rfl, ?_, ?_, ?_, ?_, ?_, ?_, ?_, ?_, ?_⟩
  · rw [hpop]
    simp [emit, calls2, calls1, calls0, calls4, hc]
  · exact Sc.1.trans hi
  · exact Sc.2.2.2.2.2.1.trans hw
  · exact Sc.2.2.2.2.2.2.trans hh
  · rw [hpop]
    simp [emit, hv]
  · intro k1
    exact Sc.2.2.2.1.trans (hfovk k1)
  · intro k1 k2
    rw [← hkeep k1 k2]
    exact Sc
  · simp [viewport_calls_append, viewport_calls, v0, v1, v2]
  · rw [sameSetting_frame img _ _ Sc, sameSetting_frame img _ _ Sc,
      sameSetting_frame img _ _ Sc]
    rw [sameSetting_frame img _ _ same4] at f0
    rw [sameSetting_frame img _ _ S0] at f1
    rw [sameSetting_frame img _ _ S1] at f2
    simp [frames_append, frames, f0, f1, f2]

theorem draw_projection_run (B : Base) (proj : Int) (s : Mode) (img : Image)
    (himg : s.image = some img) (hp : proj = 0 ∨ proj = 1 ∨ proj = 2) :
    ∃ (slice : Int) (F : Point3) (t : Mode) (cs : List GLCall),
      image_slice B img proj s.focus = some slice ∧
      camera_target img proj slice s.target = some F ∧
      draw_projection B proj s = ⟨.ok, t⟩ ∧ t.sameSetting s ∧ t.calls = s.calls ++ cs ∧
      ∀ g, frames g cs = [⟨proj, slice,
        ⟨g.viewport, some (ortho_bounds img proj s), some ⟨-F.x, -F.y, -F.z⟩⟩⟩] := by
  obtain ⟨slice, F, h1, h2⟩ := in_range_slice_target B img proj hp s.focus s.target
  refine ⟨slice, F, ?_⟩
  unfold draw_projection
  simp only [himg, h1, h2]
  rcases hp with rfl | rfl | rfl <;> cases hs : s.show_orientation
  all_goals simp [emitAll, emit, hs, edge_labels, frames, Tracked.exec,
    Mode.sameSetting, ortho_bounds]

theorem viewports_of_frames (img : Image) (c : Mode) (cs : List GLCall)
    (sl0 sl1 sl2 : Int) (F0 F1 F2 : Point3) (r0 r1 r2 : Rect)
    (h : frames Tracked.init cs = [projection_frame img c 0 sl0 F0 r0,
      projection_frame img c 1 sl1 F1 r1, projection_frame img c 2 sl2 F2 r2]) :
    viewports cs = [r0, r1, r2] := by
  simp [viewports, h, projection_frame]

/-- The viewports of a paint run on a surface `(0, 0, W, H)` of non-negative size. -/
theorem paint_surface_frames (B : Base) (s : Mode) (img : Image) (W H : Int)
    (himg : s.image = some img) (hvp : s.gl_viewport = ⟨0, 0, W, H⟩)
    (hW : 0 ≤ W) (hH : 0 ≤ H) :
    ∃ (c : Mode) (sl0 sl1 sl2 : Int) (F0 F1 F2 : Point3),
      paint B s = ⟨.ok, c⟩ ∧ c.image = some img ∧
      c.glarea_width = s.glarea_width ∧ c.glarea_height = s.glarea_height ∧
      (B.point_invalid s.focus = false → c.FOV = s.FOV) ∧
      (B.point_invalid s.focus = false → B.point_invalid s.target = false → c.sameSetting s) ∧
      viewport_calls (issued s c) =
        [⟨W / 2, H / 2, W / 2, H / 2⟩, ⟨0, H / 2, W / 2, H / 2⟩, ⟨0, 0, W / 2, H / 2⟩] ∧
      frames Tracked.init (issued s c) =
        [projection_frame img c 0 sl0 F0 ⟨W / 2, H / 2, W / 2, H / 2⟩,
         projection_frame img c 1 sl1 F1 ⟨0, H / 2, W / 2, H / 2⟩,
         projection_frame img c 2 sl2 F2 ⟨0, 0, W / 2, H / 2⟩] := by
  obtain ⟨c, cs, midx, midy, sl0, sl1, sl2, F0, F1, F2, hmx, hmy, hp, hcalls, hi, hw, hh, -,
    hfk, hk, hvc, hf⟩ := paint_run B s img himg
  have e0 : s.gl_viewport.elem 0 = 0 := by rw [hvp]; rfl
  have e1 : s.gl_viewport.elem 1 = 0 := by rw [hvp]; rfl
  have e2 : s.gl_viewport.elem 2 = W := by rw [hvp]; rfl
  have e3 : s.gl_viewport.elem 3 = H := by rw [hvp]; rfl
  rw [e0, e2, toGLint_mid W hW] at hmx
  rw [e1, e3, toGLint_mid H hH] at hmy
  subst hmx hmy
  rw [e0, e1] at hf hvc
  have hiss := issued_of_calls s c cs hcalls
  exact ⟨c, sl0, sl1, sl2, F0, F1, F2, hp, hi, hw, hh, hfk, hk, by rw [hiss]; exact hvc,
    by rw [hiss]; exact hf⟩

/-! ## Viewport partition (claims C1 and C8) -/

/-- Claim C1: on a surface whose current viewport is `(0, 0, W, H)` with `W` and `H` even
and non-negative, `Ortho::paint` completes, passes exactly the three rectangles
`(W/2, H/2, W/2, H/2)`, `(0, H/2, W/2, H/2)` and `(0, 0, W/2, H/2)` to `glViewport`, and
renders projections 0, 1 and 2, in this order, into them. These rectangles are pairwise
non-overlapping; the first is the
upper-right quadrant, the second the upper-left and the third the lower-left (larger `y` is
higher); and their areas add up to `W * H * 3 / 4`. -/
theorem paint_viewports_three_quadrants (B : Base) (s : Mode) (img : Image) (W H : Int)
    (himg : s.image = some img) (hvp : s.gl_viewport = ⟨0, 0, W, H⟩)
    (hW : 0 ≤ W) (hH : 0 ≤ H) (hWe : W % 2 = 0) (hHe : H % 2 = 0) :
    (paint B s).status = .ok ∧
    viewport_calls (issued s (paint B s).state) =
      [⟨W / 2, H / 2, W / 2, H / 2⟩, ⟨0, H / 2, W / 2, H / 2⟩, ⟨0, 0, W / 2, H / 2⟩] ∧
    (frames Tracked.init (issued s (paint B s).state)).map
        (fun f => (f.proj, f.setup.viewport)) =
      [(0, some ⟨W / 2, H / 2, W / 2, H / 2⟩), (1, some ⟨0, H / 2, W / 2, H / 2⟩),
       (2, some ⟨0, 0, W / 2, H / 2⟩)] ∧
    ¬ Rect.overlaps ⟨W / 2, H / 2, W / 2, H / 2⟩ ⟨0, H / 2, W / 2, H / 2⟩ ∧
    ¬ Rect.overlaps ⟨W / 2, H / 2, W / 2, H / 2⟩ ⟨0, 0, W / 2, H / 2⟩ ∧
    ¬ Rect.overlaps ⟨0, H / 2, W / 2, H / 2⟩ ⟨0, 0, W / 2, H / 2⟩ ∧
    (∀ px py : Int, Rect.contains ⟨W / 2, H / 2, W / 2, H / 2⟩ px py ↔
      (W / 2 ≤ px ∧ px < W ∧ H / 2 ≤ py ∧ py < H)) ∧
    (∀ px py : Int, Rect.contains ⟨0, H / 2, W / 2, H / 2⟩ px py ↔
      (0 ≤ px ∧ px < W / 2 ∧ H / 2 ≤ py ∧ py < H)) ∧
    (∀ px py : Int, Rect.contains ⟨0, 0, W / 2, H / 2⟩ px py ↔
      (0 ≤ px ∧ px < W / 2 ∧ 0 ≤ py ∧ py < H / 2)) ∧
    Rect.area ⟨W / 2, H / 2, W / 2, H / 2⟩ + Rect.area ⟨0, H / 2, W / 2, H / 2⟩ +
      Rect.area ⟨0, 0, W / 2, H / 2⟩ = W * H * 3 / 4 := by
  obtain ⟨c, sl0, sl1, sl2, F0, F1, F2, hp, -, -, -, -, -, hvc, hf⟩ := paint_surface_frames B s img W H himg hvp hW hH
  obtain ⟨a, rfl⟩ : ∃ a, W = 2 * a := ⟨W / 2, by omega⟩
  obtain ⟨b, rfl⟩ : ∃ b, H = 2 * b := ⟨H / 2, by omega⟩
  have ha : 2 * a / 2 = a := by omega
  have hb : 2 * b / 2 = b := by omega
  have hst : (paint B s).status = .ok := by rw [hp]
  have hvs : viewport_calls (issued s (paint B s).state) =
      [⟨a, b, a, b⟩, ⟨0, b, a, b⟩, ⟨0, 0, a, b⟩] := by
    rw [hp]
    simpa [ha, hb] using hvc
  have hfr : (frames Tracked.init (issued s (paint B s).state)).map
      (fun f => (f.proj, f.setup.viewport)) =
      [(0, some ⟨a, b, a, b⟩), (1, some ⟨0, b, a, b⟩), (2, some ⟨0, 0, a, b⟩)] := by
    rw [hp]
    simp [hf, ha, hb, projection_frame]
  simp only [ha, hb]
  refine ⟨hst, hvs, hfr, ?_, ?_, ?_, ?_, ?_, ?_, ?_⟩
  · rintro ⟨px, py, h1, h2⟩
    simp only [Rect.contains] at h1 h2
    omega
  · rintro ⟨px, py, h1, h2⟩
    simp only [Rect.contains] at h1 h2
    omega
  · rintro ⟨px, py, h1, h2⟩
    simp only [Rect.contains] at h1 h2
    omega
  · intro px py
    simp only [Rect.contains]
    omega
  · intro px py
    simp only [Rect.contains]
    omega
  · intro px py
    simp only [Rect.contains]
    omega
  · simp only [Rect.area]
    have : 2 * a * (2 * b) * 3 = (a * b + a * b + a * b) * 4 := by ring
    rw [this, Int.mul_ediv_cancel _ (by norm_num : (4 : Int) ≠ 0)]

theorem paint_viewports_three_quadrants_witness :
    (sampleMode (some sampleImage) true 4 6 0 0).image = some sampleImage ∧
    (sampleMode (some sampleImage) true 4 6 0 0).gl_viewport = ⟨0, 0, 4, 6⟩ ∧
    (0 : Int) ≤ 4 ∧ (0 : Int) ≤ 6 ∧ (4 : Int) % 2 = 0 ∧ (6 : Int) % 2 = 0 ∧
    (paint sampleBase (sampleMode (some sampleImage) true 4 6 0 0)).status = .ok ∧
    (frames Tracked.init (issued (sampleMode (some sampleImage) true 4 6 0 0)
        (paint sampleBase (sampleMode (some sampleImage) true 4 6 0 0)).state)).map
        (fun f => (f.proj, f.setup.viewport)) =
      [(0, some ⟨2, 3, 2, 3⟩), (1, some ⟨0, 3, 2, 3⟩), (2, some ⟨0, 0, 2, 3⟩)] ∧
    Rect.area ⟨2, 3, 2, 3⟩ + Rect.area ⟨0, 3, 2, 3⟩ + Rect.area ⟨0, 0, 2, 3⟩ = 18 := by
  have h := paint_viewports_three_quadrants sampleBase (sampleMode (some sampleImage) true 4 6 0 0)
    sampleImage 4 6 rfl rfl (by decide) (by decide) (by decide) (by decide)
  refine ⟨rfl, rfl, by decide, by decide, by decide, by decide, h.1, ?_, ?_⟩
  · simpa using h.2.2.1
  · decide

/-- Claim C8, as stated, fails: on the 2 x 2 surface the pixel `(1, 0)` lies on the surface
but in none of the three viewports that `Ortho::paint` sets (the lower-right quadrant is
left blank), so the viewports do not tile the surface. -/
theorem paint_tiling_counterexample :
    viewports (issued (sampleMode (some sampleImage) false 2 2 0 0)
      (paint sampleBase (sampleMode (some sampleImage) false 2 2 0 0)).state) =
      [⟨1, 1, 1, 1⟩, ⟨0, 1, 1, 1⟩, ⟨0, 0, 1, 1⟩] ∧
    ((0 : Int) ≤ 1 ∧ (1 : Int) < 2 ∧ (0 : Int) ≤ 0 ∧ (0 : Int) < 2) ∧
    coverCount (viewports (issued (sampleMode (some sampleImage) false 2 2 0 0)
      (paint sampleBase (sampleMode (some sampleImage) false 2 2 0 0)).state)) 1 0 = 0 := by
  obtain ⟨c, sl0, sl1, sl2, F0, F1, F2, hp, -, -, -, -, -, hvc, hf⟩ := paint_surface_frames sampleBase
    (sampleMode (some sampleImage) false 2 2 0 0) sampleImage 2 2 rfl rfl (by decide) (by decide)
  have hv := viewports_of_frames _ _ _ _ _ _ _ _ _ _ _ _ hf
  rw [hp]
  simp only [hv]
  refine ⟨by decide, by decide, by decide⟩

/-- Claim C8, amended: on a surface `(0, 0, W, H)` with `W` and `H` even and non-negative,
the three viewports that `Ortho::paint` sets (the rectangles it gives to `glViewport`, which
are the viewports in force at its three `render2D` calls) have non-negative width and
height, every pixel
of the surface lies in at most one of them, and it lies in exactly one of them if and only
if it is outside the lower-right quadrant `W/2 <= x`, `y < H/2`, which no viewport covers. -/
theorem paint_viewports_cover_three_quadrants (B : Base) (s : Mode) (img : Image) (W H : Int)
    (himg : s.image = some img) (hvp : s.gl_viewport = ⟨0, 0, W, H⟩)
    (hW : 0 ≤ W) (hH : 0 ≤ H) (hWe : W % 2 = 0) (hHe : H % 2 = 0) :
    viewport_calls (issued s (paint B s).state) =
      [⟨W / 2, H / 2, W / 2, H / 2⟩, ⟨0, H / 2, W / 2, H / 2⟩, ⟨0, 0, W / 2, H / 2⟩] ∧
    viewports (issued s (paint B s).state) = viewport_calls (issued s (paint B s).state) ∧
    (∀ r ∈ viewports (issued s (paint B s).state), 0 ≤ r.w ∧ 0 ≤ r.h) ∧
    ∀ px py : Int, 0 ≤ px → px < W → 0 ≤ py → py < H →
      coverCount (viewports (issued s (paint B s).state)) px py ≤ 1 ∧
      (coverCount (viewports (issued s (paint B s).state)) px py = 1 ↔
        ¬ (W / 2 ≤ px ∧ py < H / 2)) := by
  obtain ⟨c, sl0, sl1, sl2, F0, F1, F2, hp, -, -, -, -, -, hvc, hf⟩ := paint_surface_frames B s img W H himg hvp hW hH
  have hv := viewports_of_frames _ _ _ _ _ _ _ _ _ _ _ _ hf
  rw [hp]
  simp only []
  rw [hv, hvc]
  refine ⟨rfl, rfl, ?_, ?_⟩
  · intro r hr
    simp only [List.mem_cons, List.mem_singleton, List.not_mem_nil, or_false] at hr
    rcases hr with rfl | rfl | rfl <;> simp only <;> omega
  · intro px py h1 h2 h3 h4
    simp only [coverCount, List.countP_cons, List.countP_nil, Rect.contains, decide_eq_true_eq]
    split_ifs <;> omega

theorem paint_viewports_cover_three_quadrants_witness :
    (sampleMode (some sampleImage) true 4 6 0 0).image = some sampleImage ∧
    (sampleMode (some sampleImage) true 4 6 0 0).gl_viewport = ⟨0, 0, 4, 6⟩ ∧
    (0 : Int) ≤ 4 ∧ (0 : Int) ≤ 6 ∧ (4 : Int) % 2 = 0 ∧ (6 : Int) % 2 = 0 ∧
    viewports (issued (sampleMode (some sampleImage) true 4 6 0 0)
      (paint sampleBase (sampleMode (some sampleImage) true 4 6 0 0)).state) =
      [⟨2, 3, 2, 3⟩, ⟨0, 3, 2, 3⟩, ⟨0, 0, 2, 3⟩] ∧
    coverCount (viewports (issued (sampleMode (some sampleImage) true 4 6 0 0)
      (paint sampleBase (sampleMode (some sampleImage) true 4 6 0 0)).state)) 1 4 = 1 := by
  have h := paint_viewports_cover_three_quadrants sampleBase
    (sampleMode (some sampleImage) true 4 6 0 0) sampleImage 4 6 rfl rfl
    (by decide) (by decide) (by decide) (by decide)
  refine ⟨rfl, rfl, by decide, by decide, by decide, by decide, ?_, ?_⟩
  · simpa using h.2.1.trans h.1
  · exact (h.2.2.2 1 4 (by decide) (by decide) (by decide) (by decide)).2.mpr (by decide)

/-! ## Orthographic half-extents (claim C10) -/

theorem half_extents_even (a b : Int) (fov : ℚ) :
    ((2 * a : Int) : ℚ) * (fov / ((2 * a + 2 * b : Int) : ℚ)) =
      (a : ℚ) * (fov / ((a : ℚ) + (b : ℚ))) := by
  push_cast
  by_cases h : (a : ℚ) + (b : ℚ) = 0
  · have h2 : (2 : ℚ) * a + 2 * b = 0 := by linear_combination 2 * h
    rw [h, h2]
    simp
  · have h2 : (2 : ℚ) * a + 2 * b ≠ 0 := by
      intro h3
      exact h (by linear_combination (1 / 2 : ℚ) * h3)
    field_simp
    ring

theorem paint_keeps_FOV (B : Base) (s : Mode) (img : Image) (himg : s.image = some img)
    (hvalid : B.point_invalid s.focus = false) : (paint B s).state.FOV = s.FOV := by
  obtain ⟨c, cs, midx, midy, sl0, sl1, sl2, F0, F1, F2, -, -, hp, -, -, -, -, -, hfk, -⟩ :=
    paint_run B s img himg
  rw [hp]
  exact hfk hvalid

/-- Claim C10, as stated, fails for an odd size: on the 3 x 2 surface with field of view 1
every projection is rendered into a 1 x 1 viewport with `glOrtho` bounds `-3/5, 3/5` and
`-2/5, 2/5`, i.e. half-extents `3/5` and `2/5` computed from the widget size 3 x 2, whereas
the formula of the claim on the viewport size gives `1/2` and `1/2`. -/
theorem ortho_half_extents_counterexample :
    ((2 : Int) ≤ 3 ∧ (2 : Int) ≤ 2) ∧
    (paint sampleBase (sampleMode (some sampleImage) false 3 2 0 0)).state.FOV = 1 ∧
    (frames Tracked.init (issued (sampleMode (some sampleImage) false 3 2 0 0)
      (paint sampleBase (sampleMode (some sampleImage) false 3 2 0 0)).state)).map
        (fun f => (f.proj, f.setup.viewport, f.bounds)) =
      [(0, some ⟨1, 1, 1, 1⟩, some (-3 / 5, 3 / 5, -2 / 5, 2 / 5)),
       (1, some ⟨0, 1, 1, 1⟩, some (-3 / 5, 3 / 5, -2 / 5, 2 / 5)),
       (2, some ⟨0, 0, 1, 1⟩, some (-3 / 5, 3 / 5, -2 / 5, 2 / 5))] ∧
    spec_half_extents 1 1 1 = (1 / 2, 1 / 2) ∧
    ((3 / 5 : ℚ), (2 / 5 : ℚ)) ≠ spec_half_extents 1 1 1 := by
  obtain ⟨c, sl0, sl1, sl2, F0, F1, F2, hp, -, hw, hh, hfk, -, -, hf⟩ := paint_surface_frames
    sampleBase (sampleMode (some sampleImage) false 3 2 0 0) sampleImage 3 2 rfl rfl
    (by decide) (by decide)
  have hfov : c.FOV = 1 := hfk rfl
  rw [hp]
  simp only []
  rw [hf]
  have hw' : c.glarea_width = 3 := hw
  have hh' : c.glarea_height = 2 := hh
  refine ⟨by decide, hfov, ?_, ?_, ?_⟩
  · simp [projection_frame, Frame.bounds, ortho_bounds, hw', hh', hfov]
    norm_num
  · norm_num [spec_half_extents]
  · norm_num [spec_half_extents]

/-- Claim C10, amended: on a surface of size `W x H` (widget size and current viewport
`(0, 0, W, H)`) with `W >= 2` and `H >= 2`, even or odd, and a field of view `fov > 0` in
force when the projections are drawn, for each of the three projections drawn by
`Ortho::paint` the bounds given to `glOrtho` are left `-W * k`, right `W * k`, bottom
`-H * k`, top `H * k` (and near, far `-depth`, `depth` of the axis), with
`k = fov / (W + H)`, where `W` and `H` are the width and height of the whole drawing area,
not of the sub-viewport; both half-extents are positive. When `W` and `H` are both even
these half-extents equal `viewportWidth * fovScale` and `viewportHeight * fovScale` with
`fovScale = fov / (viewportWidth + viewportHeight)` for the sub-viewport size `(W/2, H/2)`
set by `paint`. The field of view in force is the one of the state when the focus is
valid (otherwise `paint` resets the view first). -/
theorem ortho_bounds_from_widget_size (B : Base) (s : Mode) (img : Image) (W H : Int)
    (himg : s.image = some img) (hvp : s.gl_viewport = ⟨0, 0, W, H⟩)
    (hgw : s.glarea_width = W) (hgh : s.glarea_height = H) (hW : 2 ≤ W) (hH : 2 ≤ H)
    (hfov : 0 < (paint B s).state.FOV) :
    (B.point_invalid s.focus = false → (paint B s).state.FOV = s.FOV) ∧
    (frames Tracked.init (issued s (paint B s).state)).map
        (fun f => (f.proj, f.setup.ortho)) =
      [(0, some (-(W : ℚ) * ((paint B s).state.FOV / ((W + H : Int) : ℚ)),
                 (W : ℚ) * ((paint B s).state.FOV / ((W + H : Int) : ℚ)),
                 -(H : ℚ) * ((paint B s).state.FOV / ((W + H : Int) : ℚ)),
                 (H : ℚ) * ((paint B s).state.FOV / ((W + H : Int) : ℚ)),
                 -((img.interp_dim 0 : ℚ) * img.interp_vox 0),
                 (img.interp_dim 0 : ℚ) * img.interp_vox 0)),
       (1, some (-(W : ℚ) * ((paint B s).state.FOV / ((W + H : Int) : ℚ)),
                 (W : ℚ) * ((paint B s).state.FOV / ((W + H : Int) : ℚ)),
                 -(H : ℚ) * ((paint B s).state.FOV / ((W + H : Int) : ℚ)),
                 (H : ℚ) * ((paint B s).state.FOV / ((W + H : Int) : ℚ)),
                 -((img.interp_dim 1 : ℚ) * img.interp_vox 1),
                 (img.interp_dim 1 : ℚ) * img.interp_vox 1)),
       (2, some (-(W : ℚ) * ((paint B s).state.FOV / ((W + H : Int) : ℚ)),
                 (W : ℚ) * ((paint B s).state.FOV / ((W + H : Int) : ℚ)),
                 -(H : ℚ) * ((paint B s).state.FOV / ((W + H : Int) : ℚ)),
                 (H : ℚ) * ((paint B s).state.FOV / ((W + H : Int) : ℚ)),
                 -((img.interp_dim 2 : ℚ) * img.interp_vox 2),
                 (img.interp_dim 2 : ℚ) * img.interp_vox 2))] ∧
    0 < (W : ℚ) * ((paint B s).state.FOV / ((W + H : Int) : ℚ)) ∧
    0 < (H : ℚ) * ((paint B s).state.FOV / ((W + H : Int) : ℚ)) ∧
    (W % 2 = 0 → H % 2 = 0 →
      (frames Tracked.init (issued s (paint B s).state)).map
          (fun f => (f.proj, f.setup.viewport, f.bounds)) =
        [(0, some ⟨W / 2, H / 2, W / 2, H / 2⟩,
            some (-(spec_half_extents (W / 2) (H / 2) (paint B s).state.FOV).1,
                  (spec_half_extents (W / 2) (H / 2) (paint B s).state.FOV).1,
                  -(spec_half_extents (W / 2) (H / 2) (paint B s).state.FOV).2,
                  (spec_half_extents (W / 2) (H / 2) (paint B s).state.FOV).2)),
         (1, some ⟨0, H / 2, W / 2, H / 2⟩,
            some (-(spec_half_extents (W / 2) (H / 2) (paint B s).state.FOV).1,
                  (spec_half_extents (W / 2) (H / 2) (paint B s).state.FOV).1,
                  -(spec_half_extents (W / 2) (H / 2) (paint B s).state.FOV).2,
                  (spec_half_extents (W / 2) (H / 2) (paint B s).state.FOV).2)),
         (2, some ⟨0, 0, W / 2, H / 2⟩,
            some (-(spec_half_extents (W / 2) (H / 2) (paint B s).state.FOV).1,
                  (spec_half_extents (W / 2) (H / 2) (paint B s).state.FOV).1,
                  -(spec_half_extents (W / 2) (H / 2) (paint B s).state.FOV).2,
                  (spec_half_extents (W / 2) (H / 2) (paint B s).state.FOV).2))]) := by
  have hkeep : B.point_invalid s.focus = false → (paint B s).state.FOV = s.FOV :=
    paint_keeps_FOV B s img himg
  obtain ⟨c, sl0, sl1, sl2, F0, F1, F2, hp, -, hw, hh, -, -, -, hf⟩ :=
    paint_surface_frames B s img W H himg hvp (by omega) (by omega)
  rw [hgw] at hw
  rw [hgh] at hh
  refine ⟨hkeep, ?_⟩
  rw [hp] at hfov ⊢
  simp only [] at hfov ⊢
  rw [hf]
  have hWq : (0 : ℚ) < (W : ℚ) := by exact_mod_cast (by omega : (0 : Int) < W)
  have hHq : (0 : ℚ) < (H : ℚ) := by exact_mod_cast (by omega : (0 : Int) < H)
  have hsum : (0 : ℚ) < ((W + H : Int) : ℚ) := by exact_mod_cast (by omega : (0 : Int) < W + H)
  refine ⟨?_, mul_pos hWq (div_pos hfov hsum), mul_pos hHq (div_pos hfov hsum), ?_⟩
  · simp [projection_frame, ortho_bounds, hw, hh]
  · intro hWe hHe
    obtain ⟨a, rfl⟩ : ∃ a, W = 2 * a := ⟨W / 2, by omega⟩
    obtain ⟨b, rfl⟩ : ∃ b, H = 2 * b := ⟨H / 2, by omega⟩
    have ha : 2 * a / 2 = a := by omega
    have hb : 2 * b / 2 = b := by omega
    have e1 := half_extents_even a b c.FOV
    have e2 := half_extents_even b a c.FOV
    rw [add_comm (2 * b) (2 * a), add_comm (b : ℚ) (a : ℚ)] at e2
    simp only [List.map_cons, List.map_nil, projection_frame, Frame.bounds, ortho_bounds,
      Option.map_some', hw, hh, ha, hb, spec_half_extents, neg_mul, e1, e2]

theorem ortho_bounds_from_widget_size_witness :
    (sampleMode (some sampleImage) true 4 6 0 0).image = some sampleImage ∧
    (sampleMode (some sampleImage) true 4 6 0 0).gl_viewport = ⟨0, 0, 4, 6⟩ ∧
    (sampleMode (some sampleImage) true 4 6 0 0).glarea_width = 4 ∧
    (sampleMode (some sampleImage) true 4 6 0 0).glarea_height = 6 ∧
    (2 : Int) ≤ 4 ∧ (2 : Int) ≤ 6 ∧
    0 < (paint sampleBase (sampleMode (some sampleImage) true 4 6 0 0)).state.FOV ∧
    0 < (4 : ℚ) * ((paint sampleBase (sampleMode (some sampleImage) true 4 6 0 0)).state.FOV /
      (((4 : Int) + 6 : Int) : ℚ)) ∧
    (frames Tracked.init (issued (sampleMode (some sampleImage) true 4 6 0 0)
      (paint sampleBase (sampleMode (some sampleImage) true 4 6 0 0)).state)).map
        (fun f => (f.proj, f.setup.viewport, f.bounds)) =
      [(0, some ⟨2, 3, 2, 3⟩, some (-(2 / 5), 2 / 5, -(3 / 5), 3 / 5)),
       (1, some ⟨0, 3, 2, 3⟩, some (-(2 / 5), 2 / 5, -(3 / 5), 3 / 5)),
       (2, some ⟨0, 0, 2, 3⟩, some (-(2 / 5), 2 / 5, -(3 / 5), 3 / 5))] := by
  have hfov1 : (paint sampleBase (sampleMode (some sampleImage) true 4 6 0 0)).state.FOV = 1 :=
    paint_keeps_FOV sampleBase (sampleMode (some sampleImage) true 4 6 0 0) sampleImage rfl rfl
  have hpos : 0 < (paint sampleBase (sampleMode (some sampleImage) true 4 6 0 0)).state.FOV := by
    rw [hfov1]
    norm_num
  have h := ortho_bounds_from_widget_size sampleBase
    (sampleMode (some sampleImage) true 4 6 0 0) sampleImage 4 6 rfl rfl rfl rfl
    (by decide) (by decide) hpos
  refine ⟨rfl, rfl, rfl, rfl, by decide, by decide, hpos, ?_, ?_⟩
  · simpa using h.2.2.1
  · have h5 := h.2.2.2.2 (by decide) (by decide)
    rw [h5, hfov1]
    norm_num [spec_half_extents]

/-! ## View reset (claim C2) -/

/-- Claim C2: for every geometry of an active image, after `Ortho::reset_view` the field of
view is `max (dim0 * vox0, dim1 * vox1, dim2 * vox2)`: it is the nested maximum computed by
the code, it bounds each of the three extents and equals one of them; in particular for
voxel counts `(64, 64, 32)` and spacings `(1, 1, 2)` it is 64. -/
theorem reset_view_fov_max_extent (B : Base) (s : Mode) (img : Image)
    (himg : s.image = some img) :
    (reset_view B s).FOV =
      max ((img.header_dim 0 : ℚ) * img.header_vox 0)
        (max ((img.header_dim 1 : ℚ) * img.header_vox 1)
          ((img.header_dim 2 : ℚ) * img.header_vox 2)) ∧
    (img.header_dim 0 : ℚ) * img.header_vox 0 ≤ (reset_view B s).FOV ∧
    (img.header_dim 1 : ℚ) * img.header_vox 1 ≤ (reset_view B s).FOV ∧
    (img.header_dim 2 : ℚ) * img.header_vox 2 ≤ (reset_view B s).FOV ∧
    ((reset_view B s).FOV = (img.header_dim 0 : ℚ) * img.header_vox 0 ∨
     (reset_view B s).FOV = (img.header_dim 1 : ℚ) * img.header_vox 1 ∨
     (reset_view B s).FOV = (img.header_dim 2 : ℚ) * img.header_vox 2) ∧
    (img.header_dim 0 = 64 → img.header_dim 1 = 64 → img.header_dim 2 = 32 →
      img.header_vox 0 = 1 → img.header_vox 1 = 1 → img.header_vox 2 = 2 →
      (reset_view B s).FOV = 64) := by
  have hfov : (reset_view B s).FOV =
      max ((img.header_dim 0 : ℚ) * img.header_vox 0)
        (max ((img.header_dim 1 : ℚ) * img.header_vox 1)
          ((img.header_dim 2 : ℚ) * img.header_vox 2)) := by
    simp [reset_view, himg, set_target, set_FOV, set_focus]
  rw [hfov]
  refine ⟨rfl, le_max_left _ _, ?_, ?_, ?_, ?_⟩
  · exact le_trans (le_max_left _ _) (le_max_right _ _)
  · exact le_trans (le_max_right _ _) (le_max_right _ _)
  · rcases max_choice ((img.header_dim 0 : ℚ) * img.header_vox 0)
        (max ((img.header_dim 1 : ℚ) * img.header_vox 1)
          ((img.header_dim 2 : ℚ) * img.header_vox 2)) with h | h
    · exact Or.inl h
    · rw [h]
      rcases max_choice ((img.header_dim 1 : ℚ) * img.header_vox 1)
          ((img.header_dim 2 : ℚ) * img.header_vox 2) with h' | h'
      · exact Or.inr (Or.inl h')
      · exact Or.inr (Or.inr h')
  · intro d0 d1 d2 v0 v1 v2
    rw [d0, d1, d2, v0, v1, v2]
    norm_num

theorem reset_view_fov_max_extent_witness :
    (sampleMode (some sampleImage) false 4 6 0 0).image = some sampleImage ∧
    (reset_view sampleBase (sampleMode (some sampleImage) false 4 6 0 0)).FOV = 64 :=
  ⟨rfl, (reset_view_fov_max_extent sampleBase (sampleMode (some sampleImage) false 4 6 0 0)
    sampleImage rfl).2.2.2.2.2 rfl rfl rfl rfl rfl rfl⟩

/-! ## No active image (claim C3) -/

/-- Claim C5: with an active image, when the show-orientation-labels toggle is checked
`Ortho::draw_projection` completes and emits exactly four labels, on the left, top, right
and bottom edge in this order: `A S P I` for axis 0, `R S L I` for axis 1 and `R A L P` for
axis 2; when the toggle is unchecked it emits no label for any axis. Within each axis the
four codes are pairwise distinct, and the three axes show three different sets of codes. -/
theorem draw_projection_orientation_labels (B : Base) (s : Mode) (img : Image)
    (himg : s.image = some img) :
    (s.show_orientation = true →
      ((draw_projection B 0 s).status = .ok ∧
        labels (issued s (draw_projection B 0 s).state) =
          [("A", B.LeftEdge), ("S", B.TopEdge), ("P", B.RightEdge), ("I", B.BottomEdge)]) ∧
      ((draw_projection B 1 s).status = .ok ∧
        labels (issued s (draw_projection B 1 s).state) =
          [("R", B.LeftEdge), ("S", B.TopEdge), ("L", B.RightEdge), ("I", B.BottomEdge)]) ∧
      ((draw_projection B 2 s).status = .ok ∧
        labels (issued s (draw_projection B 2 s).state) =
          [("R", B.LeftEdge), ("A", B.TopEdge), ("L", B.RightEdge), ("P", B.BottomEdge)]) ∧
      ((labels (issued s (draw_projection B 0 s).state)).map Prod.fst).Nodup ∧
      ((labels (issued s (draw_projection B 1 s).state)).map Prod.fst).Nodup ∧
      ((labels (issued s (draw_projection B 2 s).state)).map Prod.fst).Nodup ∧
      ((labels (issued s (draw_projection B 0 s).state)).map Prod.fst).toFinset ≠
        ((labels (issued s (draw_projection B 1 s).state)).map Prod.fst).toFinset ∧
      ((labels (issued s (draw_projection B 0 s).state)).map Prod.fst).toFinset ≠
        ((labels (issued s (draw_projection B 2 s).state)).map Prod.fst).toFinset ∧
      ((labels (issued s (draw_projection B 1 s).state)).map Prod.fst).toFinset ≠
        ((labels (issued s (draw_projection B 2 s).state)).map Prod.fst).toFinset) ∧
    (s.show_orientation = false → ∀ proj : Int, proj = 0 ∨ proj = 1 ∨ proj = 2 →
      (draw_projection B proj s).status = .ok ∧
      labels (issued s (draw_projection B proj s).state) = []) := by
  have e0 : s.show_orientation = true → (draw_projection B 0 s).status = .ok ∧
      labels (issued s (draw_projection B 0 s).state) =
        [("A", B.LeftEdge), ("S", B.TopEdge), ("P", B.RightEdge), ("I", B.BottomEdge)] := by
    intro hs
    simp [draw_projection, himg, hs, emitAll, emit, issued, edge_labels, labels, image_slice,
      camera_target, Point3.get, Point3.set]
  have e1 : s.show_orientation = true → (draw_projection B 1 s).status = .ok ∧
      labels (issued s (draw_projection B 1 s).state) =
        [("R", B.LeftEdge), ("S", B.TopEdge), ("L", B.RightEdge), ("I", B.BottomEdge)] := by
    intro hs
    simp [draw_projection, himg, hs, emitAll, emit, issued, edge_labels, labels, image_slice,
      camera_target, Point3.get, Point3.set]
  have e2 : s.show_orientation = true → (draw_projection B 2 s).status = .ok ∧
      labels (issued s (draw_projection B 2 s).state) =
        [("R", B.LeftEdge), ("A", B.TopEdge), ("L", B.RightEdge), ("P", B.BottomEdge)] := by
    intro hs
    simp [draw_projection, himg, hs, emitAll, emit, issued, edge_labels, labels, image_slice,
      camera_target, Point3.get, Point3.set]
  refine ⟨?_, ?_⟩
  · intro hs
    refine ⟨e0 hs, e1 hs, e2 hs, ?_⟩
    rw [(e0 hs).2, (e1 hs).2, (e2 hs).2]
    simp only [List.map_cons, List.map_nil]
    refine ⟨by decide, by decide, by decide, by decide, by decide, by decide⟩
  · intro hs proj hp
    rcases hp with rfl | rfl | rfl <;>
      simp [draw_projection, himg, hs, emitAll, emit, issued, labels, image_slice,
        camera_target, Point3.get, Point3.set]

theorem draw_projection_orientation_labels_witness :
    (sampleMode (some sampleImage) true 4 6 0 0).image = some sampleImage ∧
    labels (issued (sampleMode (some sampleImage) true 4 6 0 0)
      (draw_projection sampleBase 2 (sampleMode (some sampleImage) true 4 6 0 0)).state) =
      [("R", 4), ("A", 1), ("L", 8), ("P", 2)] :=
  ⟨rfl, ((draw_projection_orientation_labels sampleBase (sampleMode (some sampleImage) true 4 6 0 0)
    sampleImage rfl).1 rfl).2.2.1.2⟩

/-! ## Look-at point (claim C9) -/

theorem get_set_same (p q : Point3) (i : Int) (v : ℚ) (h : p.set i v = some q) :
    q.get i = some v := by
  unfold Point3.set at h
  split_ifs at h <;> simp only [Option.some.injEq] at h <;> subst h <;>
    simp_all [Point3.get]

theorem get_set_other (p q : Point3) (i j : Int) (v : ℚ) (h : p.set i v = some q)
    (hij : j ≠ i) : q.get j = p.get j := by
  unfold Point3.set at h
  split_ifs at h with h0 h1 h2 <;> simp only [Option.some.injEq] at h <;> subst h <;>
    subst_vars <;> unfold Point3.get <;> split_ifs <;> simp_all

theorem set_congr_in_plane (p q : Point3) (i : Int) (v : ℚ)
    (hi : i = 0 ∨ i = 1 ∨ i = 2)
    (h : ∀ j : Int, (j = 0 ∨ j = 1 ∨ j = 2) → j ≠ i → p.get j = q.get j) :
    p.set i v = q.set i v := by
  have hx := h 0 (Or.inl rfl)
  have hy := h 1 (Or.inr (Or.inl rfl))
  have hz := h 2 (Or.inr (Or.inr rfl))
  cases p
  cases q
  rcases hi with rfl | rfl | rfl <;> simp_all [Point3.get, Point3.set]

/-- Claim C9: assume `scanner2voxel (voxel2scanner (p)) = p` for every voxel-space point.
For every projection axis in `{0, 1, 2}`, focus and target, the read
`scanner2voxel (focus)[axis]` has a value `v` and the look-at point `F` is defined;
`Ortho::draw_projection` completes, renders the slice `round (v)` and translates the view
by `-F`, where `F` satisfies: `scanner2voxel (F)[axis]` is that slice index, and
`scanner2voxel (F)[j] = scanner2voxel (target)[j]` for both axes `j` other than `axis`.
Hence `F` is the same for any two targets whose voxel coordinates agree on the two in-plane
axes: it does not depend on the target's component along the projection axis. -/
theorem draw_projection_look_at_point (B : Base) (s : Mode) (img : Image) (axis : Int)
    (himg : s.image = some img) (haxis : axis = 0 ∨ axis = 1 ∨ axis = 2)
    (hround : ∀ p : Point3, img.scanner2voxel (img.voxel2scanner p) = p) :
    ∃ (v : ℚ) (F : Point3),
      (img.scanner2voxel s.focus).get axis = some v ∧
      image_slice B img axis s.focus = some (B.round v) ∧
      camera_target img axis (B.round v) s.target = some F ∧
      (draw_projection B axis s).status = .ok ∧
      (frames Tracked.init (issued s (draw_projection B axis s).state)).map
          (fun f => (f.proj, f.slice, f.setup.translate)) =
        [(axis, B.round v, some ⟨-F.x, -F.y, -F.z⟩)] ∧
      (img.scanner2voxel F).get axis = some ((B.round v : Int) : ℚ) ∧
      (∀ j : Int, (j = 0 ∨ j = 1 ∨ j = 2) → j ≠ axis →
        (img.scanner2voxel F).get j = (img.scanner2voxel s.target).get j) ∧
      (∀ target2 : Point3,
        (∀ j : Int, (j = 0 ∨ j = 1 ∨ j = 2) → j ≠ axis →
          (img.scanner2voxel target2).get j = (img.scanner2voxel s.target).get j) →
        camera_target img axis (B.round v) target2 = some F) := by
  obtain ⟨slice, F, t, cs, hsl, hF, hd, -, hcalls, hf⟩ :=
    draw_projection_run B axis s img himg haxis
  obtain ⟨v, hv, rfl⟩ : ∃ v, (img.scanner2voxel s.focus).get axis = some v ∧
      B.round v = slice := by
    simpa [image_slice] using hsl
  obtain ⟨G, hG, rfl⟩ : ∃ G, (img.scanner2voxel s.target).set axis ((B.round v : Int) : ℚ)
      = some G ∧ img.voxel2scanner G = F := by
    simpa [camera_target] using hF
  refine ⟨v, img.voxel2scanner G, hv, hsl, hF, by rw [hd], ?_, ?_, ?_, ?_⟩
  · rw [hd]
    simp only []
    rw [issued_of_calls s t cs hcalls, hf]
    simp
  · rw [hround]
    exact get_set_same _ _ _ _ hG
  · intro j _ hne
    rw [hround]
    exact get_set_other _ _ _ _ _ hG hne
  · intro target2 h
    simp only [camera_target]
    rw [set_congr_in_plane _ _ axis _ haxis h, hG]
    rfl

theorem draw_projection_look_at_point_witness :
    (sampleMode (some sampleImage) true 4 6 0 0).image = some sampleImage ∧
    ((2 : Int) = 0 ∨ (2 : Int) = 1 ∨ (2 : Int) = 2) ∧
    (∀ p : Point3, sampleImage.scanner2voxel (sampleImage.voxel2scanner p) = p) ∧
    ∃ (v : ℚ) (F : Point3),
      (sampleImage.scanner2voxel (sampleMode (some sampleImage) true 4 6 0 0).focus).get 2
        = some v ∧
      camera_target sampleImage 2 (sampleBase.round v)
        (sampleMode (some sampleImage) true 4 6 0 0).target = some F ∧
      (draw_projection sampleBase 2 (sampleMode (some sampleImage) true 4 6 0 0)).status = .ok ∧
      (sampleImage.scanner2voxel F).get 2 = some ((sampleBase.round v : Int) : ℚ) ∧
      (sampleImage.scanner2voxel F).get 1 =
        (sampleImage.scanner2voxel (sampleMode (some sampleImage) true 4 6 0 0).target).get 1 := by
  obtain ⟨v, F, h1, -, h3, h4, -, h6, h7, -⟩ := draw_projection_look_at_point sampleBase
    (sampleMode (some sampleImage) true 4 6 0 0) sampleImage 2 rfl (by decide) (fun _ => rfl)
  exact ⟨rfl, by decide, fun _ => rfl, v, F, h1, h3, h4, h6,
    h7 1 (by decide) (by decide)⟩

/-! ## Cursor selection (claim C6) -/

theorem and_two_pow_ne_zero_iff (x l : Nat) : x &&& 2 ^ l ≠ 0 ↔ x.testBit l = true := by
  constructor
  · intro h
    obtain ⟨i, hi⟩ := Nat.ne_zero_implies_bit_true h
    rw [Nat.testBit_and, Nat.testBit_two_pow, Bool.and_eq_true, decide_eq_true_eq] at hi
    obtain ⟨hx, rfl⟩ := hi
    exact hx
  · intro h h0
    have := congrArg (fun n => Nat.testBit n l) h0
    simp [Nat.testBit_two_pow_self, h] at this

theorem edge_mask_testBit (B : Base) (l r t b : Nat) (hb : edge_bits B l r t b) (S : EdgeSet)
    (i : Nat) :
    (edge_mask B S).testBit i =
      ((S.left && decide (l = i)) || (S.right && decide (r = i)) ||
       (S.top && decide (t = i)) || (S.bottom && decide (b = i))) := by
  obtain ⟨hL, hR, hT, hB, -⟩ := hb
  obtain ⟨sl, sr, st, sb⟩ := S
  cases sl <;> cases sr <;> cases st <;> cases sb <;>
    simp [edge_mask, hL, hR, hT, hB, Nat.testBit_lor, Nat.testBit_two_pow]

theorem edge_mask_eq_right_bottom (B : Base) (l r t b : Nat) (hb : edge_bits B l r t b)
    (S : EdgeSet) :
    edge_mask B S = (B.RightEdge ||| B.BottomEdge) ↔ S = ⟨false, true, false, true⟩ := by
  constructor
  · intro h
    have key : ∀ i, (edge_mask B S).testBit i = (decide (r = i) || decide (b = i)) := by
      intro i
      rw [h, Nat.testBit_lor, hb.2.1, hb.2.2.2.1, Nat.testBit_two_pow, Nat.testBit_two_pow]
    have kl := key l
    have kr := key r
    have kt := key t
    have kb := key b
    rw [edge_mask_testBit B l r t b hb S] at kl kr kt kb
    obtain ⟨-, -, -, -, hlr, hlt, hlb, hrt, hrb, htb⟩ := hb
    obtain ⟨sl, sr, st, sb⟩ := S
    have hrl := Ne.symm hlr
    have htl := Ne.symm hlt
    have hbl := Ne.symm hlb
    have htr := Ne.symm hrt
    have hbr := Ne.symm hrb
    have hbt := Ne.symm htb
    simp [hlr, hlt, hlb, hrt, hrb, htb, hrl, htl, hbl, htr, hbr, hbt] at kl kr kt kb
    simp [kl, kr, kt, kb]
  · rintro rfl
    simp [edge_mask]

theorem edge_mask_and_left (B : Base) (l r t b : Nat) (hb : edge_bits B l r t b) (S : EdgeSet) :
    edge_mask B S &&& B.LeftEdge ≠ 0 ↔ S.left = true := by
  rw [hb.1, and_two_pow_ne_zero_iff, edge_mask_testBit B l r t b hb S]
  obtain ⟨-, -, -, -, hlr, hlt, hlb, -⟩ := hb
  simp [Ne.symm hlr, Ne.symm hlt, Ne.symm hlb]

/-- Claim C6: for every edge mask reported by `mouse_edge`, i.e. the mask of any subset `S`
of the edges Left, Right, Top, Bottom (the four flags being distinct single bits),
`Ortho::set_cursor` selects the window cursor if and only if `S` is exactly
`{Right, Bottom}`, the zoom cursor if and only if `S` contains Left, and the crosshair
cursor in every other case; it selects exactly one of the three and changes nothing but
the cursor. -/
theorem set_cursor_by_edge_set (B : Base) (s : Mode) (l r t b : Nat) (S : EdgeSet)
    (hbits : edge_bits B l r t b) (hmask : s.mouse_edge = edge_mask B S) :
    ((set_cursor B s).cursor = .window ↔ S = ⟨false, true, false, true⟩) ∧
    ((set_cursor B s).cursor = .zoom ↔ S.left = true) ∧
    ((set_cursor B s).cursor = .crosshair ↔
      (S ≠ ⟨false, true, false, true⟩ ∧ S.left = false)) ∧
    ((set_cursor B s).cursor = .window ∨ (set_cursor B s).cursor = .zoom ∨
      (set_cursor B s).cursor = .crosshair) ∧
    set_cursor B s = { s with cursor := (set_cursor B s).cursor } := by
  have hw := edge_mask_eq_right_bottom B l r t b hbits S
  have hz := edge_mask_and_left B l r t b hbits S
  by_cases h1 : edge_mask B S = (B.RightEdge ||| B.BottomEdge)
  · have e : set_cursor B s = setCursor .window s := by
      unfold set_cursor
      rw [hmask, if_pos h1]
    have hS := hw.mp h1
    rw [e]
    simp [setCursor, hS]
  · have hS : S ≠ ⟨false, true, false, true⟩ := fun h => h1 (hw.mpr h)
    by_cases h2 : edge_mask B S &&& B.LeftEdge ≠ 0
    · have e : set_cursor B s = setCursor .zoom s := by
        unfold set_cursor
        rw [hmask, if_neg h1, if_pos h2]
      have hl := hz.mp h2
      rw [e]
      simp [setCursor, hS, hl]
    · have e : set_cursor B s = setCursor .crosshair s := by
        unfold set_cursor
        rw [hmask, if_neg h1, if_neg h2]
      have hl : S.left = false := by
        cases h : S.left
        · rfl
        · exact absurd (hz.mpr h) h2
      rw [e]
      simp [setCursor, hS, hl]

theorem set_cursor_by_edge_set_witness :
    edge_bits sampleBase 2 3 0 1 ∧
    (sampleMode none false 4 6 10 0).mouse_edge =
      edge_mask sampleBase ⟨false, true, false, true⟩ ∧
    (set_cursor sampleBase (sampleMode none false 4 6 10 0)).cursor = .window := by
  have hb : edge_bits sampleBase 2 3 0 1 := by
    unfold edge_bits sampleBase
    decide
  exact ⟨hb, by decide,
    (set_cursor_by_edge_set sampleBase (sampleMode none false 4 6 10 0) 2 3 0 1
      ⟨false, true, false, true⟩ hb (by decide)).1.mpr rfl⟩

/-! ## Wheel zoom (claim C7) -/

/-- Claim C7, as stated, fails: with the wheel vertical and Control and Shift both held, a
modifier set that contains Control, `Ortho::mouse_wheel` returns false and changes nothing:
no zoom is applied and no redraw requested. -/
theorem mouse_wheel_counterexample :
    (Qt_ControlModifier ||| Qt_ShiftModifier) &&& Qt_ControlModifier ≠ 0 ∧
    (mouse_wheel sampleBase 1 .Vertical
      (sampleMode (some sampleImage) false 4 6 0 (Qt_ControlModifier ||| Qt_ShiftModifier))).1
      = false ∧
    (mouse_wheel sampleBase 1 .Vertical
      (sampleMode (some sampleImage) false 4 6 0 (Qt_ControlModifier ||| Qt_ShiftModifier))).2.redraws
      = 0 ∧
    (mouse_wheel sampleBase 1 .Vertical
      (sampleMode (some sampleImage) false 4 6 0 (Qt_ControlModifier ||| Qt_ShiftModifier))).2.FOV
      = 1 := by
  refine ⟨by decide, ?_, ?_, ?_⟩ <;>
    simp [mouse_wheel, sampleMode, Qt_ControlModifier, Qt_ShiftModifier]

/-- Claim C7, amended: for every wheel delta, wheel orientation and modifier state,
`Ortho::mouse_wheel` applies `change_FOV_scroll (-delta)`, requests a redraw and returns
true if and only if the orientation is vertical and the held modifiers are exactly the
Control modifier (Control together with any other modifier does not count); in every other
case it returns false and leaves the whole state, including field of view, focus, target
and the redraw count, unchanged. -/
theorem mouse_wheel_zoom_iff_vertical_and_exactly_control (B : Base) (delta : ℚ)
    (orientation : Orientation) (s : Mode) :
    ((mouse_wheel B delta orientation s).1 = true ↔
      (orientation = .Vertical ∧ s.mouse_modifiers = Qt_ControlModifier)) ∧
    ((orientation = .Vertical ∧ s.mouse_modifiers = Qt_ControlModifier) →
      mouse_wheel B delta orientation s = (true, updateGL (B.change_FOV_scroll (-delta) s))) ∧
    (¬ (orientation = .Vertical ∧ s.mouse_modifiers = Qt_ControlModifier) →
      mouse_wheel B delta orientation s = (false, s)) := by
  unfold mouse_wheel
  by_cases h1 : orientation = .Vertical <;> by_cases h2 : s.mouse_modifiers = Qt_ControlModifier <;>
    simp [h1, h2]

end Ortho
